import Mathlib

/-!
# Verification of `catir.py` (CAmera Trap Image Renamer)

Shallow embedding of `src/catir.py` (`main` and its helpers) in Lean 4.

External collaborators (PIL metadata extraction, `os.walk`, `os.rename`) are
modelled as oracle inputs: the walk is supplied as an ordered list of
`(root, files)` pairs, EXIF extraction as a function from path to result, and
rename success as a boolean oracle.  Python strings are Lean `String`s;
Python's `int(...)` on an optionally signed digit string, `str.zfill`,
`str(...)` slicing, `os.path.join`, `os.path.basename`, `str.split` and
`str.format` are modelled by the `py*` helpers below, each faithful to the
slice of behaviour the program exercises (ASCII file names, templates without
`{{`/`}}` escapes or format specs).
-/

deriving instance DecidableEq for Except

namespace Catir

/-- Is `pre` a prefix of `l`? (kernel-computable prefix test). -/
def listPrefix : List Char → List Char → Bool
  | [], _ => true
  | a :: as, bs =>
      match bs with
      | [] => false
      | b :: bs' => a = b && listPrefix as bs' 

/-- Python `s.startswith(pre)`. -/
def pyStartsWith (s pre : String) : Bool := listPrefix pre.data s.data

/-- Python `s.endswith(suf)`. -/
def pyEndsWith (s suf : String) : Bool := listPrefix suf.data.reverse s.data.reverse

/-- Python `s.split(sep)` for a one-character separator. -/
def splitOnChar (sep : Char) : List Char → List (List Char)
  | [] => [[]]
  | c :: cs =>
      if c = sep then [] :: splitOnChar sep cs
      else
        match splitOnChar sep cs with
        | h :: t => (c :: h) :: t
        | [] => [[c]]

/-- Python `s.split("/")`. -/
def pySplitSlash (s : String) : List String :=
  (splitOnChar '/' s.data).map String.mk

/-- Python `s.strip()`: trim surrounding whitespace. -/
def pyStrip (s : String) : String :=
  String.mk (((s.data.dropWhile Char.isWhitespace).reverse.dropWhile Char.isWhitespace).reverse)

/-- Python string `<=` (lexicographic by code point), driving `sorted()`. -/
def pyLeChars : List Char → List Char → Bool
  | [], _ => true
  | a :: as, bs =>
      match bs with
      | [] => false
      | b :: bs' =>
          if a.toNat < b.toNat then true
          else if a.toNat = b.toNat then pyLeChars as bs'
          else false

/-- Insertion into a sorted list (for the model of Python `sorted()`). -/
def insertSorted (x : String) : List String → List String
  | [] => [x]
  | y :: ys => if pyLeChars x.data y.data then x :: y :: ys else y :: insertSorted x ys

/-- Python `sorted(files)`. -/
def pySorted (l : List String) : List String := l.foldr insertSorted []

/-- Python `s.split('.', 1)[0]`: the characters before the first `'.'`
(the whole string when there is no dot). -/
def takeBeforeDot (s : String) : String :=
  String.mk (s.data.takeWhile (fun c => c ≠ '.'))

/-- Python `s[-2:]`: the last two characters (the whole string when shorter). -/
def pyLast2 (s : String) : String :=
  String.mk (s.data.drop (s.data.length - 2))

/-- Python `s[:17]`: the first 17 characters. -/
def pyTake17 (s : String) : String :=
  String.mk (s.data.take 17)

/-- Digit-string to number; `none` on an empty or non-digit string. -/
def digitsToNat? (cs : List Char) : Option Nat :=
  if cs = [] then none
  else cs.foldl (fun acc c =>
    match acc with
    | none => none
    | some n => if c.isDigit then some (n * 10 + (c.toNat - '0'.toNat)) else none)
    (some 0)

/-- Python `int(s)` on an optionally signed decimal literal
(`ValueError` = `none`). -/
def pyInt (s : String) : Option Int :=
  match s.data with
  | '-' :: rest => (digitsToNat? rest).map (fun n => -(n : Int))
  | '+' :: rest => (digitsToNat? rest).map (fun n => (n : Int))
  | l => (digitsToNat? l).map (fun n => (n : Int))

/-- Python `str(n).zfill(w)`: decimal rendering zero-padded to width `w`,
with zeros inserted after a leading sign. -/
def pyZfill (n : Int) (w : Nat) : String :=
  let s := toString n
  match s.data with
  | '-' :: rest => String.mk ('-' :: List.replicate (w - 1 - rest.length) '0' ++ rest)
  | l => String.mk (List.replicate (w - l.length) '0' ++ l)

/-- Python `os.path.join(a, b)` for POSIX paths. -/
def pathJoin (a b : String) : String :=
  if pyStartsWith b "/" then b
  else if a = "" then b
  else if pyEndsWith a "/" then a ++ b
  else a ++ "/" ++ b

/-- Python `os.path.basename(p)`: the part after the last `'/'`. -/
def basename (p : String) : String :=
  (pySplitSlash p).getLastD ""

/-- Crash kinds: uncaught Python exceptions (and exhaustion of the fuel that
bounds the collision `while` loop, marking non-termination). -/
inductive CrashKind where
  | indexError      -- list index out of range (deployment-name derivation)
  | formatError     -- str.format KeyError / ValueError
  | valueError      -- int() on a non-numeric string
  | nonTermination  -- collision loop still running when fuel runs out
deriving DecidableEq, Repr

/-- `str.format(**data)` on a template of literal text and `{key}` fields
(no `{{`/`}}` escapes, no format specs — the program's templates have none).
`none` models Python raising `KeyError` (unknown key) or `ValueError`
(stray brace). Accumulator `key?` is `some acc` while inside a `{...}` field,
holding the key's characters in reverse. -/
def rtAux (d : String → Option String) : List Char → Option (List Char) → Option (List Char)
  | [], none => some []
  | [], some _ => none
  | c :: cs, none =>
      if c = '{' then rtAux d cs (some [])
      else if c = '}' then none
      else (rtAux d cs none).map (fun r => c :: r)
  | c :: cs, some key =>
      if c = '}' then
        match d (String.mk key.reverse) with
        | some v => (rtAux d cs none).map (fun r => v.data ++ r)
        | none => none
      else rtAux d cs (some (c :: key))

/-- Python `template.format(**d)` (see `rtAux`). -/
def renderTemplate (t : String) (d : String → Option String) : Option String :=
  (rtAux d t.data none).map String.mk

/-- The collision-resolution `while` loop of `main` (src/catir.py lines
219–231), with explicit fuel.

```
while (os.path.isfile(new_file_name_complete)):
    current_args = new_file_name.split('.', 1)
    seconds = int(current_args[0][-2:])
    rest_of_args = current_args[0][:17]
    seconds += 1
    new_file_name = (rest_of_args + str(seconds).zfill(2) + '.{ext}').format(**new_image_data)
    new_file_name_complete = os.path.join(root, deployment_name + "_" + new_file_name)
```

The filesystem is `fs` (the set of existing paths); `isfile p` is `p ∈ fs`.
Returns the final `(new_file_name, new_file_name_complete)` pair, or the
crash kind when `int()`/`format` raises or fuel runs out.
`collisionNext` is the loop body's computation of the next `new_file_name`. -/
def collisionNext (dict : String → Option String) (name : String) :
    Except CrashKind String :=
  let beforeDot := takeBeforeDot name
  match pyInt (pyLast2 beforeDot) with
  | none => .error .valueError
  | some seconds =>
    let restOfArgs := pyTake17 beforeDot
    match renderTemplate (restOfArgs ++ pyZfill (seconds + 1) 2 ++ ".{ext}") dict with
    | none => .error .formatError
    | some name' => .ok name'

/-- See `collisionNext`. -/
def resolveCollision (fs : List String) (root dep : String)
    (dict : String → Option String) :
    Nat → String → Except CrashKind (String × String)
  | 0, name =>
      let complete := pathJoin root (dep ++ "_" ++ name)
      if complete ∈ fs then .error .nonTermination
      else .ok (name, complete)
  | fuel + 1, name =>
      let complete := pathJoin root (dep ++ "_" ++ name)
      if complete ∈ fs then
        match collisionNext dict name with
        | .error k => .error k
        | .ok name' => resolveCollision fs root dep dict fuel name'
      else .ok (name, complete)

/-- The six named groups of the timestamp regex (src/catir.py lines 190–193). -/
structure TsGroups where
  YYYY : String
  MM : String
  DD : String
  hh : String
  mm : String
  ss : String
deriving DecidableEq, Repr

/-- Match `\d{lo,hi}` immediately followed by the literal `lit`, at the head
of `cs`.  Because every digit group in the pattern is followed by a non-digit
literal, Python's greedy matching with backtracking succeeds exactly when the
maximal digit run at this position has length in `[lo, hi]` and is followed by
`lit`; the group captures that whole run. -/
def matchGroupLit (lo hi : Nat) (lit : Char) (cs : List Char) :
    Option (List Char × List Char) :=
  let r := cs.takeWhile Char.isDigit
  if lo ≤ r.length ∧ r.length ≤ hi then
    match cs.dropWhile Char.isDigit with
    | c :: rest => if c = lit then some (r, rest) else none
    | [] => none
  else none

/-- Match the final group `\d\d?` (pattern end, so greedy takes
`min 2 run` digits and succeeds whenever at least one digit is present). -/
def matchSSFinal (cs : List Char) : Option (List Char × List Char) :=
  let t := (cs.takeWhile Char.isDigit).take 2
  if t = [] then none else some (t, cs.drop t.length)

/-- Try the full pattern
`(?P<YYYY>\d\d\d?\d?):(?P<MM>\d\d?):(?P<DD>\d\d?) (?P<hh>\d\d?):(?P<mm>\d\d?):(?P<ss>\d\d?)`
anchored at the head of `cs`.  Note the year group is `\d\d\d?\d?`:
two to four digits. -/
def tsMatchAt (cs : List Char) : Option TsGroups := do
  let (y, cs) ← matchGroupLit 2 4 ':' cs
  let (mo, cs) ← matchGroupLit 1 2 ':' cs
  let (d, cs) ← matchGroupLit 1 2 ' ' cs
  let (h, cs) ← matchGroupLit 1 2 ':' cs
  let (mi, cs) ← matchGroupLit 1 2 ':' cs
  let (s, _) ← matchSSFinal cs
  pure ⟨String.mk y, String.mk mo, String.mk d, String.mk h, String.mk mi, String.mk s⟩

/-- Python `re.search`: try the pattern at each position, leftmost first. -/
def tsSearch : List Char → Option TsGroups
  | [] => tsMatchAt []
  | c :: cs =>
      match tsMatchAt (c :: cs) with
      | some g => some g
      | none => tsSearch cs

/-- `DeriveTimestamp`'s parsing step (src/catir.py lines 190–193):
`re.search(pattern, img_timestamp.strip())`. -/
def deriveTimestamp (raw : String) : Option TsGroups :=
  tsSearch (pyStrip raw).data

/-- An EXIF record as consumed by `main`: the five tag fields the program
reads (a `none` field is an absent dictionary key) plus `format`, which
`get_exif_data` always sets from `img.format`. -/
structure ExifData where
  artist : Option String
  make : Option String
  model : Option String
  dateTimeOriginal : Option String
  dateTimeDigitized : Option String
  format : String
deriving DecidableEq, Repr

/-- Outcome of `get_exif_data`: `NotAnImageFile`, `InvalidExifData`, or a
record. -/
inductive ExifResult where
  | notAnImageFile
  | invalidExifData
  | ok (e : ExifData)
deriving DecidableEq, Repr

/-- Python truthiness of an optional string: `None` and `''` are falsy. -/
def truthy : Option String → Bool
  | none => false
  | some s => s ≠ ""

/-- Python `a or b` on two optional strings. -/
def pyOr (a b : Option String) : Option String :=
  if truthy a then a else b

/-- Timestamp source selection (src/catir.py lines 181–182):
`exif_data.get('DateTimeOriginal') or exif_data.get('DateTimeDigitized')`. -/
def selectTimestamp (e : ExifData) : Option String :=
  pyOr e.dateTimeOriginal e.dateTimeDigitized

/-- The substitution map `new_image_data` (src/catir.py lines 201–208):
Artist/Make/Model with `''` default, `Folder`, zero-padded `Seq`, `ext`,
and the six regex groups. -/
def subMap (e : ExifData) (folder seqStr : String) (g : TsGroups) :
    String → Option String := fun k =>
  if k = "Artist" then some (e.artist.getD "")
  else if k = "Make" then some (e.make.getD "")
  else if k = "Model" then some (e.model.getD "")
  else if k = "Folder" then some folder
  else if k = "Seq" then some seqStr
  else if k = "ext" then some e.format
  else if k = "YYYY" then some g.YYYY
  else if k = "MM" then some g.MM
  else if k = "DD" then some g.DD
  else if k = "hh" then some g.hh
  else if k = "mm" then some g.mm
  else if k = "ss" then some g.ss
  else none

/-- CLI configuration consumed by `main` (src/catir.py lines 140–148). -/
structure Config where
  sequenceStart : Int
  recursive : Bool
  includeHidden : Bool
  testMode : Bool
  deploymentName : Option String
  timestampFormat : String
deriving DecidableEq, Repr

/-- Mutable state of one run of `main`: the memoized `deployment_name`, the
filesystem (set of existing paths, consulted by `os.path.isfile` and mutated
by `os.rename`), the `skipped_files` list, the successful renames performed,
and the reported `(old_file_name, new_file_name_complete)` pairs.  `touched`
is a ghost trace of every `(root, f)` that reaches `get_exif_data`
(i.e., passes the hidden-file check). -/
structure RunState where
  deployment : Option String
  fs : List String
  skipped : List (String × String)
  renamed : List (String × String)
  reported : List (String × String)
  touched : List (String × String)
deriving DecidableEq, Repr

/-- Python truthiness test `if not deployment_name` on the state. -/
def deploymentFalsy (st : RunState) : Bool := !truthy st.deployment

/-- `new_file_name = (timestamp_format + '.{ext}').format(**new_image_data)`
(src/catir.py line 211). -/
def buildNewFileName (cfg : Config) (e : ExifData) (g : TsGroups)
    (seqVal : Int) (seqWidth : Nat) (root : String) : Option String :=
  renderTemplate (cfg.timestampFormat ++ ".{ext}")
    (subMap e (basename root) (pyZfill seqVal seqWidth) g)

/-- Deployment-name resolution (src/catir.py lines 215–216):
`if not deployment_name: deployment_name = new_file_name_with_path.split("/")[-5]`.
`none` models the uncaught `IndexError` when the path has fewer than five
`'/'`-separated segments. -/
def deriveDeployment (st : RunState) (withPath : String) : Option String :=
  if deploymentFalsy st then
    let parts := pySplitSlash withPath
    if h : parts.length < 5 then none
    else some (parts.get ⟨parts.length - 5, by omega⟩)
  else st.deployment

/-- Rename `old` to `new` in the filesystem model. -/
def fsRename (fs : List String) (old new : String) : List String :=
  new :: fs.filter (fun p => p ≠ old)

/-- Process one file `f` of directory `root` (src/catir.py lines 165–246).
`seqVal` is the current value of the `itertools.count` iterator (returned
incremented when `next(seq)` is consumed).  `fuel` bounds the collision loop.
On an uncaught exception the error carries the crash kind and the state at
the moment of the crash. -/
def processFile (cfg : Config) (exifOf : String → ExifResult)
    (renameOk : String → String → Bool) (fuel : Nat)
    (root : String) (seqWidth : Nat) (st : RunState) (seqVal : Int)
    (f : String) : Except (CrashKind × RunState) (RunState × Int) :=
  -- Skip hidden files unless specified by user
  if !cfg.includeHidden && pyStartsWith f "." then .ok (st, seqVal)
  else
    let oldFileName := pathJoin root f
    let st := { st with touched := st.touched ++ [(root, f)] }
    match exifOf oldFileName with
    | .notAnImageFile => .ok (st, seqVal)
    | .invalidExifData =>
        .ok ({ st with skipped := st.skipped ++ [(oldFileName, "No EXIF data found")] }, seqVal)
    | .ok exifData =>
      let imgTimestamp := selectTimestamp exifData
      if !truthy imgTimestamp then
        .ok ({ st with
               skipped := st.skipped ++ [(oldFileName, "No timestamp found in image EXIF")] },
             seqVal)
      else
        match deriveTimestamp (imgTimestamp.getD "") with
        | none =>
            .ok ({ st with
                   skipped := st.skipped ++ [(oldFileName, "Timestamp not in correct format")] },
                 seqVal)
        | some groups =>
          -- next(seq) is consumed here, while building new_image_data
          let dict := subMap exifData (basename root) (pyZfill seqVal seqWidth) groups
          let seqVal' := seqVal + 1
          match buildNewFileName cfg exifData groups seqVal seqWidth root with
          | none => .error (.formatError, st)
          | some newFileName =>
            let newFileNameWithPath := pathJoin root newFileName
            match deriveDeployment st newFileNameWithPath with
            | none => .error (.indexError, st)
            | some dep =>
              let st := { st with deployment := some dep }
              match resolveCollision st.fs root dep dict fuel newFileName with
              | .error k => .error (k, st)
              | .ok (_finalName, finalComplete) =>
                if !cfg.testMode && !renameOk oldFileName finalComplete then
                  .ok ({ st with
                         skipped := st.skipped ++ [(oldFileName, "Failed to rename file")] },
                       seqVal')
                else
                  let st :=
                    if cfg.testMode then st
                    else { st with fs := fsRename st.fs oldFileName finalComplete,
                                   renamed := st.renamed ++ [(oldFileName, finalComplete)] }
                  .ok ({ st with reported := st.reported ++ [(oldFileName, finalComplete)] },
                       seqVal')

/-- Process the files of one directory in sorted order, threading the
sequence counter (src/catir.py lines 156–249). -/
def processFiles (cfg : Config) (exifOf : String → ExifResult)
    (renameOk : String → String → Bool) (fuel : Nat)
    (root : String) (seqWidth : Nat) :
    List String → RunState → Int → Except (CrashKind × RunState) (RunState × Int)
  | [], st, seqVal => .ok (st, seqVal)
  | f :: rest, st, seqVal =>
      match processFile cfg exifOf renameOk fuel root seqWidth st seqVal f with
      | .error e => .error e
      | .ok (st', seqVal') => processFiles cfg exifOf renameOk fuel root seqWidth rest st' seqVal'

/-- One directory of the walk: fresh sequence counter starting at the
configured value, padding width `len(str(len(files)))`, files visited in
sorted order. -/
def processDir (cfg : Config) (exifOf : String → ExifResult)
    (renameOk : String → String → Bool) (fuel : Nat)
    (root : String) (files : List String) (st : RunState) :
    Except (CrashKind × RunState) RunState :=
  let seqWidth := (toString files.length).length
  match processFiles cfg exifOf renameOk fuel root seqWidth
      (pySorted files) st cfg.sequenceStart with
  | .error e => .error e
  | .ok (st', _) => .ok st'

/-- Should this directory's own files be skipped?
`not include_hidden and os.path.basename(root).startswith('.')`. -/
def skipDir (cfg : Config) (root : String) : Bool :=
  !cfg.includeHidden && pyStartsWith (basename root) "."

/-- The `os.walk` loop of `main` (src/catir.py lines 151–253) over the walk
entries of one input path.  A hidden directory is passed over with `continue`
— which also bypasses the non-recursive `break` at the loop's end. -/
def processWalk (cfg : Config) (exifOf : String → ExifResult)
    (renameOk : String → String → Bool) (fuel : Nat) :
    List (String × List String) → RunState → Except (CrashKind × RunState) RunState
  | [], st => .ok st
  | (root, files) :: rest, st =>
      if skipDir cfg root then processWalk cfg exifOf renameOk fuel rest st
      else
        match processDir cfg exifOf renameOk fuel root files st with
        | .error e => .error e
        | .ok st' =>
            if cfg.recursive then processWalk cfg exifOf renameOk fuel rest st'
            else .ok st'

/-- The whole run of `main` over the walks of all input paths; `deployment`,
`fs` and `skipped` persist across input paths. -/
def runMain (cfg : Config) (exifOf : String → ExifResult)
    (renameOk : String → String → Bool) (fuel : Nat) :
    List (List (String × List String)) → RunState → Except (CrashKind × RunState) RunState
  | [], st => .ok st
  | walk :: rest, st =>
      match processWalk cfg exifOf renameOk fuel walk st with
      | .error e => .error e
      | .ok st' => runMain cfg exifOf renameOk fuel rest st'

/-- Initial state of a run: no deployment name memoized beyond the configured
one, a given filesystem, empty bookkeeping. -/
def initState (cfg : Config) (fs : List String) : RunState :=
  { deployment := cfg.deploymentName, fs := fs,
    skipped := [], renamed := [], reported := [], touched := [] }

/-! ## Lemmas about the collision-resolution loop -/

theorem resolveCollision_ok_spec (fs : List String) (root dep : String)
    (dict : String → Option String) :
    ∀ (fuel : Nat) (name fin comp : String),
      resolveCollision fs root dep dict fuel name = .ok (fin, comp) →
      comp ∉ fs ∧ comp = pathJoin root (dep ++ "_" ++ fin) := by
  intro fuel
  induction fuel with
  | zero =>
    intro name fin comp h
    simp only [resolveCollision] at h
    split at h
    · exact absurd h (by simp)
    · rename_i hmem
      simp only [Except.ok.injEq, Prod.mk.injEq] at h
      obtain ⟨h1, h2⟩ := h
      subst h1; subst h2
      exact ⟨hmem, rfl⟩
  | succ fuel ih =>
    intro name fin comp h
    simp only [resolveCollision] at h
    split at h
    · split at h
      · exact absurd h (by simp)
      · exact ih _ _ _ h
    · rename_i hmem
      simp only [Except.ok.injEq, Prod.mk.injEq] at h
      obtain ⟨h1, h2⟩ := h
      subst h1; subst h2
      exact ⟨hmem, rfl⟩

/-- The directory of C1's concrete scenario: the candidate base name already
present at seconds `00` through `05` (complete paths, deployment prefix `D_`). -/
def c1Fs : List String :=
  (List.range 6).map (fun k => "/a/b/c/d/D_2023-04-05_06-07-" ++ pyZfill (k : Int) 2 ++ ".JPG")

/-- Substitution map of C1's concrete scenario. -/
def c1Dict : String → Option String :=
  subMap ⟨none, none, none, some "2023:04:05 06:07:00", none, "JPG"⟩ "d" "1"
    ⟨"2023", "04", "05", "06", "07", "00"⟩

/-- C1: whenever the collision-resolution loop returns a final
`(name, complete-path)` pair, that path does not exist in the filesystem at
the moment it is chosen; and for a directory pre-populated with the candidate
base name at seconds `00`–`05`, resolving a candidate with seconds `00`
yields the name with seconds `06`. -/
theorem collision_loop_returns_fresh_name :
    (∀ (fs : List String) (root dep : String) (dict : String → Option String)
        (fuel : Nat) (name fin comp : String),
        resolveCollision fs root dep dict fuel name = .ok (fin, comp) → comp ∉ fs)
    ∧ resolveCollision c1Fs "/a/b/c/d" "D" c1Dict 100 "2023-04-05_06-07-00.JPG"
        = .ok ("2023-04-05_06-07-06.JPG", "/a/b/c/d/D_2023-04-05_06-07-06.JPG") := by
  constructor
  · intro fs root dep dict fuel name fin comp h
    exact (resolveCollision_ok_spec fs root dep dict fuel name fin comp h).1
  · decide

/-- C1 witness: the universally quantified part of
`collision_loop_returns_fresh_name`, instantiated at the concrete scenario of
its second conjunct. -/
theorem collision_loop_returns_fresh_name_witness :
    "/a/b/c/d/D_2023-04-05_06-07-06.JPG" ∉ c1Fs :=
  collision_loop_returns_fresh_name.1 c1Fs "/a/b/c/d" "D" c1Dict 100
    "2023-04-05_06-07-00.JPG" "2023-04-05_06-07-06.JPG"
    "/a/b/c/d/D_2023-04-05_06-07-06.JPG"
    collision_loop_returns_fresh_name.2

/-! ## C2: the collision loop need not terminate

The loop body parses the seconds value from the *last two characters* of the
base name.  Incrementing `99` gives the three-character `"100"`; on the next
iteration `[-2:]` reads `"00"` and `[:17]` drops `"100"` entirely, so the
candidate with seconds `01` recurs: the candidates cycle through the 100
names with seconds `01`–`99` and `100`.  A directory holding all of them
(plus the initial candidate) keeps the loop running forever. -/

/-- Substitution map of C2's concrete scenario. -/
def c2Dict : String → Option String :=
  subMap ⟨none, none, none, some "2023:04:05 06:07:00", none, "JPG"⟩ "d" "1"
    ⟨"2023", "04", "05", "06", "07", "00"⟩

/-- The candidate base name with seconds slot `s` (Python renders `100` as
three characters, just as `str(100).zfill(2)` does). -/
def c2Name (s : Nat) : String := "2023-04-05_06-07-" ++ pyZfill (s : Int) 2 ++ ".JPG"

/-- Complete path of `c2Name s` in the target directory. -/
def c2Complete (s : Nat) : String := pathJoin "/a/b/c/d" ("D" ++ "_" ++ c2Name s)

/-- The divergence-inducing directory: the candidate (`00`) plus every name
of the loop's cycle (`01`–`99` and `100`). -/
def c2Fs : List String := (List.range 101).map (fun k => c2Complete k)

theorem c2_mem (s : Nat) (hs : s < 101) : c2Complete s ∈ c2Fs :=
  List.mem_map.mpr ⟨s, List.mem_range.mpr hs, rfl⟩

theorem c2Complete_eq (s : Nat) :
    pathJoin "/a/b/c/d" ("D" ++ "_" ++ c2Name s) = c2Complete s := rfl

set_option maxRecDepth 4000 in
theorem c2_step : ∀ s, s < 101 →
    collisionNext c2Dict (c2Name s) = .ok (c2Name (s % 100 + 1)) := by decide

theorem c2_loops_aux : ∀ (fuel s : Nat), s < 101 →
    resolveCollision c2Fs "/a/b/c/d" "D" c2Dict fuel (c2Name s)
      = .error .nonTermination := by
  intro fuel
  induction fuel with
  | zero =>
    intro s hs
    simp only [resolveCollision, c2Complete_eq]
    rw [if_pos (c2_mem s hs)]
  | succ fuel ih =>
    intro s hs
    simp only [resolveCollision, c2Complete_eq]
    rw [c2_step s hs, if_pos (c2_mem s hs)]
    exact ih (s % 100 + 1) (by omega)

/-- C2 counterexample: it is NOT the case that the collision loop terminates
for every candidate name and every finite filesystem — on `c2Fs` (101 files:
the candidate plus the full seconds cycle `01..100`) the loop starting from
the candidate with seconds `00` is still running at every fuel bound. -/
theorem collision_loop_can_diverge :
    ¬ (∀ (fs : List String) (root dep : String) (dict : String → Option String)
         (name : String), ∃ fuel : Nat,
           resolveCollision fs root dep dict fuel name ≠ .error .nonTermination) := by
  intro h
  obtain ⟨fuel, hr⟩ := h c2Fs "/a/b/c/d" "D" c2Dict (c2Name 0)
  exact hr (c2_loops_aux fuel 0 (by omega))

/-- C2 amended: the spliced seconds value is not unbounded — it is reparsed
from the last two characters each iteration, so after `100` it wraps back to
`01` (first conjunct), and the loop's candidates range over a bounded cycle;
the loop does terminate whenever at least one cycle name (seconds `01..100`)
is absent from the directory (second conjunct), but not for every finite
filesystem (see the counterexample). -/
theorem collision_loop_termination_amended :
    collisionNext c2Dict (c2Name 100) = .ok (c2Name 1)
    ∧ ∀ (fs : List String) (k : Nat), 1 ≤ k → k ≤ 100 → c2Complete k ∉ fs →
        ∃ (fuel : Nat) (r : String × String),
          resolveCollision fs "/a/b/c/d" "D" c2Dict fuel (c2Name 0) = .ok r := by
  constructor
  · decide
  · have aux : ∀ (d : Nat) (fs : List String) (s k : Nat), k = s + d → k ≤ 100 →
        c2Complete k ∉ fs → ∃ (fuel : Nat) (r : String × String),
          resolveCollision fs "/a/b/c/d" "D" c2Dict fuel (c2Name s) = .ok r := by
      intro d
      induction d with
      | zero =>
        intro fs s k hk h100 habs
        refine ⟨0, (c2Name s, c2Complete s), ?_⟩
        simp only [resolveCollision, c2Complete_eq]
        rw [if_neg (by rw [show s = k by omega]; exact habs)]
      | succ d ih =>
        intro fs s k hk h100 habs
        by_cases hmem : c2Complete s ∈ fs
        · obtain ⟨fuel, r, hr⟩ := ih fs (s + 1) k (by omega) h100 habs
          refine ⟨fuel + 1, r, ?_⟩
          simp only [resolveCollision, c2Complete_eq]
          rw [c2_step s (by omega), if_pos hmem,
            show s % 100 = s from Nat.mod_eq_of_lt (by omega)]
          exact hr
        · exact ⟨0, (c2Name s, c2Complete s), by
            simp only [resolveCollision, c2Complete_eq]; rw [if_neg hmem]⟩
    intro fs k h1 h100 habs
    exact aux k fs 0 k (by omega) h100 habs

/-- C2 amended, witness: the termination conjunct applied to the empty
filesystem with absent cycle name `k = 1`. -/
theorem collision_loop_termination_amended_witness :
    ∃ (fuel : Nat) (r : String × String),
      resolveCollision [] "/a/b/c/d" "D" c2Dict fuel (c2Name 0) = .ok r :=
  collision_loop_termination_amended.2 [] 1 (by omega) (by omega)
    (by simp)

/-! ## C3: the timestamp grammar

The spec's grammar gives the year 1–4 digits (`\d{1,4}`); the code's pattern
is `\d\d\d?\d?` — 2–4 digits — and is applied with unanchored `re.search`. -/

/-- All characters are decimal digits. -/
def allDigits (l : List Char) : Prop := ∀ c ∈ l, c.isDigit

instance (l : List Char) : Decidable (allDigits l) :=
  inferInstanceAs (Decidable (∀ c ∈ l, c.isDigit = true))

theorem prefix_drop_eq {t cs : List Char} (hpre : t <+: cs) :
    cs = t ++ cs.drop t.length := by
  obtain ⟨u, rfl⟩ := hpre
  rw [List.drop_left]

/-- Declarative decomposition of `cs` as
`YYYY ':' MM ':' DD ' ' hh ':' mm ':' ss`, every group all digits, the year
of length `lo`–4 and the five other groups of length 1–2. -/
def grammarDecomp (lo : Nat) (cs : List Char) : Prop :=
  ∃ y mo d h mi s : List Char,
    cs = y ++ ':' :: (mo ++ ':' :: (d ++ ' ' :: (h ++ ':' :: (mi ++ ':' :: s)))) ∧
    allDigits y ∧ allDigits mo ∧ allDigits d ∧ allDigits h ∧ allDigits mi ∧ allDigits s ∧
    lo ≤ y.length ∧ y.length ≤ 4 ∧
    1 ≤ mo.length ∧ mo.length ≤ 2 ∧ 1 ≤ d.length ∧ d.length ≤ 2 ∧
    1 ≤ h.length ∧ h.length ≤ 2 ∧ 1 ≤ mi.length ∧ mi.length ≤ 2 ∧
    1 ≤ s.length ∧ s.length ≤ 2

/-- Modelled from the spec's words: the (trimmed) string, as a whole, matches
the claim's grammar `\d{1,4}:\d{1,2}:\d{1,2} \d{1,2}:\d{1,2}:\d{1,2}`. -/
def claimGrammarMatch (str : String) : Prop :=
  grammarDecomp 1 (pyStrip str).data

/-- The string contains (anywhere) a match of the code's grammar
`\d{2,4}:\d{1,2}:\d{1,2} \d{1,2}:\d{1,2}:\d{1,2}` — the semantics of
`re.search` with the code's year group `\d\d\d?\d?`. -/
def searchGrammarMatch (cs : List Char) : Prop :=
  ∃ pre mid post : List Char, cs = pre ++ mid ++ post ∧ grammarDecomp 2 mid

theorem matchGroupLit_eq_some {lo hi : Nat} {lit : Char} {cs r rest : List Char}
    (h : matchGroupLit lo hi lit cs = some (r, rest)) :
    cs = r ++ lit :: rest ∧ allDigits r ∧ lo ≤ r.length ∧ r.length ≤ hi := by
  simp only [matchGroupLit] at h
  split at h
  · rename_i hlen
    split at h
    · rename_i c rest' hdrop
      split at h
      · rename_i hlit
        simp only [Option.some.injEq, Prod.mk.injEq] at h
        obtain ⟨rfl, rfl⟩ := h
        subst hlit
        refine ⟨?_, fun c hc => List.mem_takeWhile_imp hc, hlen.1, hlen.2⟩
        conv_lhs => rw [← List.takeWhile_append_dropWhile (p := Char.isDigit) (l := cs)]
        rw [hdrop]
      · exact absurd h (by simp)
    · exact absurd h (by simp)
  · exact absurd h (by simp)

theorem matchSSFinal_eq_some {cs t rest : List Char}
    (h : matchSSFinal cs = some (t, rest)) :
    cs = t ++ rest ∧ allDigits t ∧ 1 ≤ t.length ∧ t.length ≤ 2 := by
  simp only [matchSSFinal] at h
  split at h
  · exact absurd h (by simp)
  · rename_i hne
    simp only [Option.some.injEq, Prod.mk.injEq] at h
    obtain ⟨ht, hrest⟩ := h
    have hpre : List.take 2 (List.takeWhile Char.isDigit cs) <+: cs :=
      (List.take_prefix _ _).trans (List.takeWhile_prefix _)
    have hdig : allDigits (List.take 2 (List.takeWhile Char.isDigit cs)) :=
      fun c hc => List.mem_takeWhile_imp (List.mem_of_mem_take hc)
    have htne : t ≠ [] := by rw [← ht]; exact hne
    refine ⟨?_, by rw [← ht]; exact hdig, List.length_pos.mpr htne,
      by rw [← ht]; exact List.length_take_le 2 _⟩
    rw [← ht, ← hrest]
    exact prefix_drop_eq hpre

theorem tsMatchAt_eq_some {cs : List Char} {g : TsGroups}
    (h : tsMatchAt cs = some g) :
    ∃ mid post : List Char, cs = mid ++ post ∧ grammarDecomp 2 mid := by
  simp only [tsMatchAt, Option.bind_eq_bind', Option.bind_eq_some, Option.pure_def,
    Option.some.injEq] at h
  obtain ⟨⟨y, cs1⟩, h1, ⟨mo, cs2⟩, h2, ⟨d, cs3⟩, h3, ⟨hh, cs4⟩, h4,
    ⟨mi, cs5⟩, h5, ⟨sg, rest⟩, h6, _⟩ := h
  obtain ⟨e1, d1, l1, u1⟩ := matchGroupLit_eq_some h1
  obtain ⟨e2, d2, l2, u2⟩ := matchGroupLit_eq_some h2
  obtain ⟨e3, d3, l3, u3⟩ := matchGroupLit_eq_some h3
  obtain ⟨e4, d4, l4, u4⟩ := matchGroupLit_eq_some h4
  obtain ⟨e5, d5, l5, u5⟩ := matchGroupLit_eq_some h5
  obtain ⟨e6, d6, l6, u6⟩ := matchSSFinal_eq_some h6
  refine ⟨y ++ ':' :: (mo ++ ':' :: (d ++ ' ' :: (hh ++ ':' :: (mi ++ ':' :: sg)))),
          rest, ?_, y, mo, d, hh, mi, sg, rfl,
          d1, d2, d3, d4, d5, d6, l1, u1, l2, u2, l3, u3, l4, u4, l5, u5, l6, u6⟩
  subst e1 e2 e3 e4 e5 e6
  simp [List.append_assoc]

theorem takeWhile_all_append {p : Char → Bool} {l₁ l₂ : List Char}
    (h : ∀ c ∈ l₁, p c) :
    (l₁ ++ l₂).takeWhile p = l₁ ++ l₂.takeWhile p := by
  induction l₁ with
  | nil => simp
  | cons a l ih =>
      simp only [List.cons_append, List.takeWhile_cons]
      rw [h a (by simp), ih (fun c hc => h c (by simp [hc]))]
      simp

theorem dropWhile_all_append {p : Char → Bool} {l₁ l₂ : List Char}
    (h : ∀ c ∈ l₁, p c) :
    (l₁ ++ l₂).dropWhile p = l₂.dropWhile p := by
  induction l₁ with
  | nil => simp
  | cons a l ih =>
      simp only [List.cons_append, List.dropWhile_cons]
      rw [h a (by simp)]
      exact ih (fun c hc => h c (by simp [hc]))

theorem matchGroupLit_complete {lo hi : Nat} {lit : Char} {y rest : List Char}
    (hd : allDigits y) (h1 : lo ≤ y.length) (h2 : y.length ≤ hi)
    (hlit : lit.isDigit = false) :
    matchGroupLit lo hi lit (y ++ lit :: rest) = some (y, rest) := by
  unfold matchGroupLit
  rw [takeWhile_all_append hd, dropWhile_all_append hd,
    List.takeWhile_cons_of_neg (by simp [hlit]),
    List.dropWhile_cons_of_neg (by simp [hlit])]
  simp [h1, h2]

theorem matchSSFinal_isSome {s rest : List Char}
    (hd : allDigits s) (h1 : 1 ≤ s.length) :
    (matchSSFinal (s ++ rest)).isSome := by
  unfold matchSSFinal
  rw [takeWhile_all_append hd]
  cases s with
  | nil => simp at h1
  | cons a l => simp

theorem tsMatchAt_isSome_of {mid post : List Char} (h : grammarDecomp 2 mid) :
    (tsMatchAt (mid ++ post)).isSome := by
  obtain ⟨y, mo, d, hh, mi, s, rfl,
    d1, d2, d3, d4, d5, d6, l1, u1, l2, u2, l3, u3, l4, u4, l5, u5, l6, u6⟩ := h
  unfold tsMatchAt
  rw [show (y ++ ':' :: (mo ++ ':' :: (d ++ ' ' :: (hh ++ ':' :: (mi ++ ':' :: s))))) ++ post
      = y ++ ':' :: (mo ++ ':' :: (d ++ ' ' :: (hh ++ ':' :: (mi ++ ':' :: (s ++ post)))))
    from by simp [List.append_assoc]]
  rw [matchGroupLit_complete d1 l1 u1 (by decide)]
  simp only [Option.bind_eq_bind', Option.some_bind]
  rw [matchGroupLit_complete d2 l2 u2 (by decide)]
  simp only [Option.some_bind]
  rw [matchGroupLit_complete d3 l3 u3 (by decide)]
  simp only [Option.some_bind]
  rw [matchGroupLit_complete d4 l4 u4 (by decide)]
  simp only [Option.some_bind]
  rw [matchGroupLit_complete d5 l5 u5 (by decide)]
  simp only [Option.some_bind]
  have := @matchSSFinal_isSome s post d6 l6
  obtain ⟨⟨t, r⟩, ht⟩ := Option.isSome_iff_exists.mp this
  rw [ht]
  simp

theorem tsSearch_isSome_imp : ∀ {cs : List Char},
    (tsSearch cs).isSome → searchGrammarMatch cs := by
  intro cs
  induction cs with
  | nil =>
    intro h
    simp only [tsSearch] at h
    obtain ⟨g, hg⟩ := Option.isSome_iff_exists.mp h
    obtain ⟨mid, post, he, hd⟩ := tsMatchAt_eq_some hg
    exact ⟨[], mid, post, by simpa using he, hd⟩
  | cons c cs ih =>
    intro h
    simp only [tsSearch] at h
    cases hm : tsMatchAt (c :: cs) with
    | some g =>
      obtain ⟨mid, post, he, hd⟩ := tsMatchAt_eq_some hm
      exact ⟨[], mid, post, by simpa using he, hd⟩
    | none =>
      rw [hm] at h
      obtain ⟨pre, mid, post, he, hd⟩ := ih h
      exact ⟨c :: pre, mid, post, by simp [he], hd⟩

theorem tsSearch_isSome_of : ∀ {cs : List Char},
    searchGrammarMatch cs → (tsSearch cs).isSome := by
  have key : ∀ (pre mid post : List Char), grammarDecomp 2 mid →
      (tsSearch (pre ++ mid ++ post)).isSome := by
    intro pre
    induction pre with
    | nil =>
      intro mid post hd
      have := @tsMatchAt_isSome_of mid post hd
      cases mp : mid ++ post with
      | nil =>
        simp only [List.nil_append]
        rw [mp] at this ⊢
        simpa [tsSearch] using this
      | cons a l =>
        simp only [List.nil_append]
        rw [mp] at this ⊢
        obtain ⟨g, hg⟩ := Option.isSome_iff_exists.mp this
        simp [tsSearch, hg]
    | cons c pre ih =>
      intro mid post hd
      simp only [List.cons_append, tsSearch]
      cases hm : tsMatchAt (c :: (pre ++ mid ++ post)) with
      | some g => simp
      | none => exact ih mid post hd
  rintro cs ⟨pre, mid, post, rfl, hd⟩
  exact key pre mid post hd

/-- C3 counterexample: `"5:1:2 3:4:5"` matches the claim's grammar
`\d{1,4}:\d{1,2}:\d{1,2} \d{1,2}:\d{1,2}:\d{1,2}` (one-digit year), yet the
code's timestamp derivation fails on it — the code's year group `\d\d\d?\d?`
requires at least two digits. -/
theorem timestamp_grammar_mismatch :
    claimGrammarMatch "5:1:2 3:4:5" ∧ deriveTimestamp "5:1:2 3:4:5" = none := by
  constructor
  · exact ⟨['5'], ['1'], ['2'], ['3'], ['4'], ['5'], by decide⟩
  · decide

/-- C3 amended: after trimming surrounding whitespace, timestamp derivation
succeeds exactly when the string CONTAINS a substring matching
`\d{2,4}:\d{1,2}:\d{1,2} \d{1,2}:\d{1,2}:\d{1,2}` — the year takes two to
four digits (`\d\d\d?\d?`), and the pattern is applied unanchored
(`re.search`), not as a full-string match. -/
theorem timestamp_derivation_amended (raw : String) :
    (deriveTimestamp raw).isSome ↔ searchGrammarMatch (pyStrip raw).data :=
  ⟨tsSearch_isSome_imp, tsSearch_isSome_of⟩

/-! ## C4: the sequence counter

`next(seq)` is consumed while building `new_image_data` (line 205) — before
the rename is attempted — so a file whose rename fails has already consumed a
sequence value. -/

/-- Does processing file `f` reach the construction of `new_image_data`,
where `next(seq)` is consumed?  True exactly when the file is not skipped as
hidden, opens as an image with EXIF, and has a truthy timestamp field that
parses.  (The later stages — template rendering, deployment derivation,
collision loop, rename — come after the consumption.) -/
def consumesSeq (cfg : Config) (exifOf : String → ExifResult) (root f : String) : Bool :=
  if !cfg.includeHidden && pyStartsWith f "." then false
  else
    match exifOf (pathJoin root f) with
    | .notAnImageFile => false
    | .invalidExifData => false
    | .ok e =>
        truthy (selectTimestamp e) &&
        (deriveTimestamp ((selectTimestamp e).getD "")).isSome

theorem processFile_consumesSeq (cfg : Config) (exifOf : String → ExifResult)
    (renameOk : String → String → Bool) (fuel : Nat) (root : String)
    (seqWidth : Nat) (st : RunState) (seqVal : Int) (f : String)
    (st' : RunState) (seqVal' : Int)
    (h : processFile cfg exifOf renameOk fuel root seqWidth st seqVal f
      = .ok (st', seqVal')) :
    seqVal' = if consumesSeq cfg exifOf root f then seqVal + 1 else seqVal := by
  simp only [processFile] at h
  unfold consumesSeq
  repeat' split at h
  any_goals exact Except.noConfusion h
  all_goals simp only [Except.ok.injEq, Prod.mk.injEq] at h
  all_goals obtain ⟨h1, h2⟩ := h
  all_goals subst h2
  all_goals simp_all
  all_goals (split <;> simp_all)

theorem processFiles_seq_count (cfg : Config) (exifOf : String → ExifResult)
    (renameOk : String → String → Bool) (fuel : Nat) (root : String)
    (seqWidth : Nat) :
    ∀ (files : List String) (st : RunState) (seqVal : Int)
      (st' : RunState) (seqVal' : Int),
      processFiles cfg exifOf renameOk fuel root seqWidth files st seqVal
        = .ok (st', seqVal') →
      seqVal' = seqVal + (files.countP (fun f => consumesSeq cfg exifOf root f)) := by
  intro files
  induction files with
  | nil =>
    intro st seqVal st' seqVal' h
    simp only [processFiles, Except.ok.injEq, Prod.mk.injEq] at h
    simp [← h.2]
  | cons f rest ih =>
    intro st seqVal st' seqVal' h
    simp only [processFiles] at h
    split at h
    · exact absurd h (by simp)
    · rename_i st1 seq1 hf
      have h1 := processFile_consumesSeq cfg exifOf renameOk fuel root seqWidth
        st seqVal f st1 seq1 hf
      have h2 := ih st1 seq1 st' seqVal' h
      rw [h2, h1, List.countP_cons]
      cases hcons : consumesSeq cfg exifOf root f with
      | true => simp only [hcons, if_true]; push_cast; ring
      | false => simp [hcons]

/-- The directory of C4's concrete counterexample scenario. -/
def c4St : RunState :=
  { deployment := some "D", fs := [], skipped := [], renamed := [],
    reported := [], touched := [] }

/-- Configuration of C4's concrete counterexample scenario. -/
def c4Cfg : Config :=
  { sequenceStart := 1, recursive := false, includeHidden := false,
    testMode := false, deploymentName := some "D",
    timestampFormat := "{YYYY}-{MM}-{DD}_{hh}-{mm}-{ss}" }

/-- EXIF oracle of C4's concrete counterexample scenario. -/
def c4Exif : String → ExifResult := fun _ =>
  .ok ⟨none, none, none, some "2023:04:05 06:07:08", none, "JPG"⟩

/-- Expected state after C4's commit-failure scenario. -/
def c4St' : RunState :=
  { c4St with
    touched := [("/a/b/c/d", "f1")]
    skipped := [("/a/b/c/d/f1", "Failed to rename file")] }

/-- C4 counterexample: a file whose rename commit fails IS skipped (skip
reason `"Failed to rename file"`) yet DOES consume a sequence value — the
counter advances from 1 to 2 — contradicting the claim that a file skipped
for commit failure does not consume a sequence value. -/
theorem sequence_counter_counterexample :
    processFile c4Cfg c4Exif (fun _ _ => false) 10 "/a/b/c/d" 1 c4St 1 "f1"
      = .ok (c4St', 2) := by
  decide

/-- C4 amended: per directory the counter starts at the configured start
value (`processDir` runs `processFiles` with `cfg.sequenceStart` on the
sorted file list) and is incremented exactly once per file that reaches the
name-construction stage — i.e. every file that is not skipped as hidden,
`NotAnImage`, `NoMetadata`, `NoTimestampField` or `MalformedTimestamp` —
independent of the collision loop; but a file whose rename commit later
fails HAS already consumed a sequence value. -/
theorem sequence_counter_amended :
    (∀ (cfg : Config) (exifOf : String → ExifResult)
       (renameOk : String → String → Bool) (fuel : Nat) (root : String)
       (seqWidth : Nat) (st : RunState) (seqVal : Int) (f : String)
       (st' : RunState) (seqVal' : Int),
       processFile cfg exifOf renameOk fuel root seqWidth st seqVal f
         = .ok (st', seqVal') →
       seqVal' = if consumesSeq cfg exifOf root f then seqVal + 1 else seqVal)
    ∧ (∀ (cfg : Config) (exifOf : String → ExifResult)
         (renameOk : String → String → Bool) (fuel : Nat) (root : String)
         (seqWidth : Nat) (files : List String) (st : RunState) (seqVal : Int)
         (st' : RunState) (seqVal' : Int),
         processFiles cfg exifOf renameOk fuel root seqWidth files st seqVal
           = .ok (st', seqVal') →
         seqVal' = seqVal + (files.countP (fun f => consumesSeq cfg exifOf root f))) :=
  ⟨processFile_consumesSeq,
   fun cfg exifOf renameOk fuel root seqWidth files st seqVal st' seqVal' h =>
     processFiles_seq_count cfg exifOf renameOk fuel root seqWidth files st
       seqVal st' seqVal' h⟩

/-- C4 amended, witness: the per-file conjunct at the commit-failure
scenario — the counter moves from 1 to 2 because `consumesSeq` holds there. -/
theorem sequence_counter_amended_witness :
    (2 : Int) = if consumesSeq c4Cfg c4Exif "/a/b/c/d" "f1" then (1 : Int) + 1 else 1 :=
  sequence_counter_amended.1 c4Cfg c4Exif (fun _ _ => false) 10 "/a/b/c/d" 1
    c4St 1 "f1" c4St' 2 (by decide)

/-! ## C5: dry-run (test) mode

Test mode never mutates the filesystem — but the collision loop consults the
*real* filesystem, so in normal mode an earlier rename can push a later file
to a different name while dry-run reports the earlier name twice. -/

theorem processFile_test_frame (cfg : Config) (exifOf : String → ExifResult)
    (renameOk : String → String → Bool) (fuel : Nat) (root : String)
    (seqWidth : Nat) (st : RunState) (seqVal : Int) (f : String)
    (htm : cfg.testMode = true) :
    (∀ st' s', processFile cfg exifOf renameOk fuel root seqWidth st seqVal f
        = .ok (st', s') → st'.fs = st.fs ∧ st'.renamed = st.renamed)
    ∧ (∀ k stE, processFile cfg exifOf renameOk fuel root seqWidth st seqVal f
        = .error (k, stE) → stE.fs = st.fs ∧ stE.renamed = st.renamed) := by
  constructor
  · intro st' s' h
    simp only [processFile] at h
    repeat' split at h
    any_goals exact Except.noConfusion h
    all_goals simp only [Except.ok.injEq, Prod.mk.injEq] at h
    all_goals obtain ⟨h1, _⟩ := h
    all_goals subst h1
    all_goals simp_all
  · intro k stE h
    simp only [processFile] at h
    repeat' split at h
    any_goals exact Except.noConfusion h
    all_goals simp only [Except.error.injEq, Prod.mk.injEq] at h
    all_goals obtain ⟨_, h2⟩ := h
    all_goals subst h2
    all_goals simp_all

theorem processFiles_test_frame (cfg : Config) (exifOf : String → ExifResult)
    (renameOk : String → String → Bool) (fuel : Nat) (root : String)
    (seqWidth : Nat) (htm : cfg.testMode = true) :
    ∀ (files : List String) (st : RunState) (seqVal : Int),
    (∀ st' s', processFiles cfg exifOf renameOk fuel root seqWidth files st seqVal
        = .ok (st', s') → st'.fs = st.fs ∧ st'.renamed = st.renamed)
    ∧ (∀ k stE, processFiles cfg exifOf renameOk fuel root seqWidth files st seqVal
        = .error (k, stE) → stE.fs = st.fs ∧ stE.renamed = st.renamed) := by
  intro files
  induction files with
  | nil =>
    intro st seqVal
    constructor
    · intro st' s' h
      simp only [processFiles, Except.ok.injEq, Prod.mk.injEq] at h
      rw [← h.1]
      exact ⟨rfl, rfl⟩
    · intro k stE h
      exact Except.noConfusion h
  | cons f rest ih =>
    intro st seqVal
    constructor
    · intro st' s' h
      simp only [processFiles] at h
      split at h
      · exact Except.noConfusion h
      · rename_i st1 seq1 hf
        have hfr := (processFile_test_frame cfg exifOf renameOk fuel root seqWidth
          st seqVal f htm).1 st1 seq1 hf
        have hrest := ((ih st1 seq1).1 st' s' h)
        exact ⟨hrest.1.trans hfr.1, hrest.2.trans hfr.2⟩
    · intro k stE h
      simp only [processFiles] at h
      split at h
      · rename_i e he
        injection h with h'
        subst h'
        exact (processFile_test_frame cfg exifOf renameOk fuel root seqWidth
          st seqVal f htm).2 k stE he
      · rename_i st1 seq1 hf
        have hfr := (processFile_test_frame cfg exifOf renameOk fuel root seqWidth
          st seqVal f htm).1 st1 seq1 hf
        have hrest := ((ih st1 seq1).2 k stE h)
        exact ⟨hrest.1.trans hfr.1, hrest.2.trans hfr.2⟩

theorem processWalk_test_frame (cfg : Config) (exifOf : String → ExifResult)
    (renameOk : String → String → Bool) (fuel : Nat) (htm : cfg.testMode = true) :
    ∀ (walk : List (String × List String)) (st : RunState),
    (∀ st', processWalk cfg exifOf renameOk fuel walk st = .ok st' →
      st'.fs = st.fs ∧ st'.renamed = st.renamed)
    ∧ (∀ k stE, processWalk cfg exifOf renameOk fuel walk st = .error (k, stE) →
      stE.fs = st.fs ∧ stE.renamed = st.renamed) := by
  intro walk
  induction walk with
  | nil =>
    intro st
    refine ⟨fun st' h => ?_, fun k stE h => Except.noConfusion h⟩
    simp only [processWalk, Except.ok.injEq] at h
    rw [← h]
    exact ⟨rfl, rfl⟩
  | cons entry rest ih =>
    obtain ⟨root, files⟩ := entry
    intro st
    have hdirOk : ∀ st1 : RunState,
        processDir cfg exifOf renameOk fuel root files st = .ok st1 →
        st1.fs = st.fs ∧ st1.renamed = st.renamed := by
      intro st1 hdir
      simp only [processDir] at hdir
      cases hp : processFiles cfg exifOf renameOk fuel root
          (toString files.length).length (pySorted files) st cfg.sequenceStart with
      | error e => rw [hp] at hdir; exact Except.noConfusion hdir
      | ok p =>
        obtain ⟨stm, seqm⟩ := p
        rw [hp] at hdir
        have hdir' : Except.ok (ε := CrashKind × RunState) stm = .ok st1 := hdir
        injection hdir' with h'
        subst h'
        exact (processFiles_test_frame cfg exifOf renameOk fuel root
          (toString files.length).length htm (pySorted files) st
          cfg.sequenceStart).1 stm seqm hp
    have hdirErr : ∀ (k : CrashKind) (stE : RunState),
        processDir cfg exifOf renameOk fuel root files st = .error (k, stE) →
        stE.fs = st.fs ∧ stE.renamed = st.renamed := by
      intro k stE hdir
      simp only [processDir] at hdir
      cases hp : processFiles cfg exifOf renameOk fuel root
          (toString files.length).length (pySorted files) st cfg.sequenceStart with
      | error e =>
        rw [hp] at hdir
        have hdir' : Except.error (α := RunState) e = .error (k, stE) := hdir
        injection hdir' with h'
        subst h'
        exact (processFiles_test_frame cfg exifOf renameOk fuel root
          (toString files.length).length htm (pySorted files) st
          cfg.sequenceStart).2 k stE hp
      | ok p =>
        obtain ⟨stm, seqm⟩ := p
        rw [hp] at hdir
        exact Except.noConfusion hdir
    constructor
    · intro st' h
      simp only [processWalk] at h
      split at h
      · exact (ih st).1 st' h
      · cases hd : processDir cfg exifOf renameOk fuel root files st with
        | error e => rw [hd] at h; exact Except.noConfusion h
        | ok st1 =>
          rw [hd] at h
          have h' : (if cfg.recursive then processWalk cfg exifOf renameOk fuel rest st1
              else .ok st1) = .ok st' := h
          have hfr := hdirOk st1 hd
          split at h'
          · have hrest := (ih st1).1 st' h'
            exact ⟨hrest.1.trans hfr.1, hrest.2.trans hfr.2⟩
          · injection h' with h''
            subst h''
            exact hfr
    · intro k stE h
      simp only [processWalk] at h
      split at h
      · exact (ih st).2 k stE h
      · cases hd : processDir cfg exifOf renameOk fuel root files st with
        | error e =>
          rw [hd] at h
          have h' : Except.error (α := RunState) e = .error (k, stE) := h
          injection h' with h''
          subst h''
          exact hdirErr k stE hd
        | ok st1 =>
          rw [hd] at h
          have h' : (if cfg.recursive then processWalk cfg exifOf renameOk fuel rest st1
              else .ok st1) = .error (k, stE) := h
          have hfr := hdirOk st1 hd
          split at h'
          · have hrest := (ih st1).2 k stE h'
            exact ⟨hrest.1.trans hfr.1, hrest.2.trans hfr.2⟩
          · exact Except.noConfusion h'

theorem runMain_test_frame (cfg : Config) (exifOf : String → ExifResult)
    (renameOk : String → String → Bool) (fuel : Nat) (htm : cfg.testMode = true) :
    ∀ (walks : List (List (String × List String))) (st : RunState),
    (∀ st', runMain cfg exifOf renameOk fuel walks st = .ok st' →
      st'.fs = st.fs ∧ st'.renamed = st.renamed)
    ∧ (∀ k stE, runMain cfg exifOf renameOk fuel walks st = .error (k, stE) →
      stE.fs = st.fs ∧ stE.renamed = st.renamed) := by
  intro walks
  induction walks with
  | nil =>
    intro st
    refine ⟨fun st' h => ?_, fun k stE h => Except.noConfusion h⟩
    simp only [runMain, Except.ok.injEq] at h
    rw [← h]
    exact ⟨rfl, rfl⟩
  | cons walk rest ih =>
    intro st
    constructor
    · intro st' h
      simp only [runMain] at h
      cases hw : processWalk cfg exifOf renameOk fuel walk st with
      | error e => rw [hw] at h; exact Except.noConfusion h
      | ok st1 =>
        rw [hw] at h
        have h' : runMain cfg exifOf renameOk fuel rest st1 = .ok st' := h
        have hfr := (processWalk_test_frame cfg exifOf renameOk fuel htm walk st).1 st1 hw
        have hrest := (ih st1).1 st' h'
        exact ⟨hrest.1.trans hfr.1, hrest.2.trans hfr.2⟩
    · intro k stE h
      simp only [runMain] at h
      cases hw : processWalk cfg exifOf renameOk fuel walk st with
      | error e =>
        rw [hw] at h
        have h' : Except.error (α := RunState) e = .error (k, stE) := h
        injection h' with h''
        subst h''
        exact (processWalk_test_frame cfg exifOf renameOk fuel htm walk st).2 k stE hw
      | ok st1 =>
        rw [hw] at h
        have h' : runMain cfg exifOf renameOk fuel rest st1 = .error (k, stE) := h
        have hfr := (processWalk_test_frame cfg exifOf renameOk fuel htm walk st).1 st1 hw
        have hrest := (ih st1).2 k stE h'
        exact ⟨hrest.1.trans hfr.1, hrest.2.trans hfr.2⟩

/-- Configuration of C5's concrete scenario (normal mode). -/
def c5Cfg : Config :=
  { sequenceStart := 1, recursive := false, includeHidden := false,
    testMode := false, deploymentName := some "D",
    timestampFormat := "{YYYY}-{MM}-{DD}_{hh}-{mm}-{ss}" }

/-- EXIF oracle of C5's concrete scenario: two files with the SAME
timestamp. -/
def c5Exif : String → ExifResult := fun p =>
  if p = "/a/b/c/d/f1" ∨ p = "/a/b/c/d/f2" then
    .ok ⟨none, none, none, some "2023:04:05 06:07:08", none, "JPG"⟩
  else .notAnImageFile

/-- The walk of C5's concrete scenario. -/
def c5Walk : List (List (String × List String)) := [[("/a/b/c/d", ["f1", "f2"])]]

/-- C5 counterexample: on two files sharing a timestamp, a normal run reports
seconds `08` then `09` (the first rename creates a collision for the second
file), while the dry-run reports `08` twice — dry-run does NOT report the
same filenames as normal mode. -/
theorem dry_run_counterexample :
    (runMain c5Cfg c5Exif (fun _ _ => true) 100 c5Walk
        (initState c5Cfg [])).map RunState.reported
      = .ok [("/a/b/c/d/f1", "/a/b/c/d/D_2023-04-05_06-07-08.JPG"),
             ("/a/b/c/d/f2", "/a/b/c/d/D_2023-04-05_06-07-09.JPG")]
    ∧ (runMain { c5Cfg with testMode := true } c5Exif (fun _ _ => true) 100 c5Walk
        (initState c5Cfg [])).map RunState.reported
      = .ok [("/a/b/c/d/f1", "/a/b/c/d/D_2023-04-05_06-07-08.JPG"),
             ("/a/b/c/d/f2", "/a/b/c/d/D_2023-04-05_06-07-08.JPG")]
    ∧ ("/a/b/c/d/D_2023-04-05_06-07-09.JPG" : String)
        ≠ "/a/b/c/d/D_2023-04-05_06-07-08.JPG" := by
  refine ⟨by decide, by decide, by decide⟩

/-- C5 amended: a dry-run performs zero filesystem mutations — the
filesystem and the list of performed renames are unchanged whether the run
completes or crashes — but the reported filenames agree with a normal run
only when no earlier rename of the same run affects a later collision check;
with two files sharing a timestamp they differ (see the counterexample). -/
theorem dry_run_amended (cfg : Config) (exifOf : String → ExifResult)
    (renameOk : String → String → Bool) (fuel : Nat)
    (walks : List (List (String × List String))) (st : RunState)
    (htm : cfg.testMode = true) :
    (∀ st', runMain cfg exifOf renameOk fuel walks st = .ok st' →
      st'.fs = st.fs ∧ st'.renamed = st.renamed)
    ∧ (∀ k stE, runMain cfg exifOf renameOk fuel walks st = .error (k, stE) →
      stE.fs = st.fs ∧ stE.renamed = st.renamed) :=
  runMain_test_frame cfg exifOf renameOk fuel htm walks st

/-- C5 amended, witness: the dry-run of the concrete two-file scenario leaves
the (empty) filesystem untouched and performs no rename. -/
theorem dry_run_amended_witness :
    ∃ st' : RunState,
      runMain { c5Cfg with testMode := true } c5Exif (fun _ _ => true) 100 c5Walk
        (initState c5Cfg []) = .ok st'
      ∧ st'.fs = (initState c5Cfg []).fs ∧ st'.renamed = (initState c5Cfg []).renamed := by
  have hok : (runMain { c5Cfg with testMode := true } c5Exif (fun _ _ => true) 100
      c5Walk (initState c5Cfg [])).isOk = true := by decide
  cases hr : runMain { c5Cfg with testMode := true } c5Exif (fun _ _ => true) 100
      c5Walk (initState c5Cfg []) with
  | error e => rw [hr] at hok; simp [Except.isOk, Except.toBool] at hok
  | ok st' =>
    have hfr := (dry_run_amended { c5Cfg with testMode := true } c5Exif
      (fun _ _ => true) 100 c5Walk (initState c5Cfg []) rfl).1 st' hr
    exact ⟨st', rfl, hfr.1, hfr.2⟩

/-! ## C6: hidden-file and hidden-directory filtering

The hidden-directory check tests only each walk entry's own basename, and its
`continue` also bypasses the non-recursive `break`:
* files in a non-dot subdirectory of a dot-directory ARE processed;
* in non-recursive mode the directory processed is the first NON-hidden
  entry of the walk, not necessarily the root. -/

theorem processDir_ok_iff (cfg : Config) (exifOf : String → ExifResult)
    (renameOk : String → String → Bool) (fuel : Nat) (root : String)
    (files : List String) (st st1 : RunState) :
    processDir cfg exifOf renameOk fuel root files st = .ok st1 ↔
    ∃ seqm, processFiles cfg exifOf renameOk fuel root
      (toString files.length).length (pySorted files) st cfg.sequenceStart
        = .ok (st1, seqm) := by
  constructor
  · intro h
    simp only [processDir] at h
    cases hp : processFiles cfg exifOf renameOk fuel root
        (toString files.length).length (pySorted files) st cfg.sequenceStart with
    | error e => rw [hp] at h; exact Except.noConfusion h
    | ok p =>
      obtain ⟨stm, seqm⟩ := p
      rw [hp] at h
      have h' : Except.ok (ε := CrashKind × RunState) stm = .ok st1 := h
      injection h' with h''
      subst h''
      exact ⟨seqm, rfl⟩
  · rintro ⟨seqm, hp⟩
    simp only [processDir]
    rw [hp]

theorem processFile_touched (cfg : Config) (exifOf : String → ExifResult)
    (renameOk : String → String → Bool) (fuel : Nat) (root : String)
    (seqWidth : Nat) (st : RunState) (seqVal : Int) (f : String)
    (st' : RunState) (s' : Int) (hih : cfg.includeHidden = false)
    (h : processFile cfg exifOf renameOk fuel root seqWidth st seqVal f
      = .ok (st', s')) :
    st'.touched = st.touched
    ∨ (st'.touched = st.touched ++ [(root, f)] ∧ pyStartsWith f "." = false) := by
  simp only [processFile] at h
  repeat' split at h
  any_goals exact Except.noConfusion h
  all_goals simp only [Except.ok.injEq, Prod.mk.injEq] at h
  all_goals obtain ⟨h1, _⟩ := h
  all_goals subst h1
  all_goals simp_all

theorem processFiles_touched (cfg : Config) (exifOf : String → ExifResult)
    (renameOk : String → String → Bool) (fuel : Nat) (root : String)
    (seqWidth : Nat) (hih : cfg.includeHidden = false) :
    ∀ (files : List String) (st : RunState) (seqVal : Int)
      (st' : RunState) (s' : Int),
      processFiles cfg exifOf renameOk fuel root seqWidth files st seqVal
        = .ok (st', s') →
      ∀ rf ∈ st'.touched,
        rf ∈ st.touched ∨ (rf.1 = root ∧ pyStartsWith rf.2 "." = false) := by
  intro files
  induction files with
  | nil =>
    intro st seqVal st' s' h rf hrf
    simp only [processFiles, Except.ok.injEq, Prod.mk.injEq] at h
    rw [← h.1] at hrf
    exact Or.inl hrf
  | cons f rest ih =>
    intro st seqVal st' s' h rf hrf
    simp only [processFiles] at h
    split at h
    · exact Except.noConfusion h
    · rename_i st1 seq1 hf
      rcases ih st1 seq1 st' s' h rf hrf with hmem | hroot
      · rcases processFile_touched cfg exifOf renameOk fuel root seqWidth st seqVal
          f st1 seq1 hih hf with heq | ⟨happ, hcond⟩
        · rw [heq] at hmem
          exact Or.inl hmem
        · rw [happ] at hmem
          rcases List.mem_append.mp hmem with h1 | h2
          · exact Or.inl h1
          · simp only [List.mem_singleton] at h2
            subst h2
            exact Or.inr ⟨rfl, hcond⟩
      · exact Or.inr hroot

theorem processWalk_touched (cfg : Config) (exifOf : String → ExifResult)
    (renameOk : String → String → Bool) (fuel : Nat)
    (hih : cfg.includeHidden = false) :
    ∀ (walk : List (String × List String)) (st st' : RunState),
      processWalk cfg exifOf renameOk fuel walk st = .ok st' →
      ∀ rf ∈ st'.touched,
        rf ∈ st.touched
        ∨ (pyStartsWith rf.2 "." = false
            ∧ pyStartsWith (basename rf.1) "." = false) := by
  intro walk
  induction walk with
  | nil =>
    intro st st' h rf hrf
    simp only [processWalk, Except.ok.injEq] at h
    rw [← h] at hrf
    exact Or.inl hrf
  | cons entry rest ih =>
    obtain ⟨root, files⟩ := entry
    intro st st' h rf hrf
    simp only [processWalk] at h
    split at h
    · exact ih st st' h rf hrf
    · rename_i hsd
      have hroot : pyStartsWith (basename root) "." = false := by
        simp only [skipDir, hih, Bool.not_false, Bool.true_and] at hsd
        simpa using hsd
      cases hd : processDir cfg exifOf renameOk fuel root files st with
      | error e => rw [hd] at h; exact Except.noConfusion h
      | ok st1 =>
        rw [hd] at h
        obtain ⟨seqm, hp⟩ := (processDir_ok_iff cfg exifOf renameOk fuel root
          files st st1).mp hd
        have hdirStep : ∀ rg ∈ st1.touched,
            rg ∈ st.touched
            ∨ (pyStartsWith rg.2 "." = false
                ∧ pyStartsWith (basename rg.1) "." = false) := by
          intro rg hrg
          rcases processFiles_touched cfg exifOf renameOk fuel root
            (toString files.length).length hih (pySorted files) st
            cfg.sequenceStart st1 seqm hp rg hrg with h1 | ⟨hr1, hr2⟩
          · exact Or.inl h1
          · rw [hr1]
            exact Or.inr ⟨hr2, hroot⟩
        have h' : (if cfg.recursive then processWalk cfg exifOf renameOk fuel rest st1
            else .ok st1) = .ok st' := h
        split at h'
        · rcases ih st1 st' h' rf hrf with h1 | h2
          · exact hdirStep rf h1
          · exact Or.inr h2
        · injection h' with h''
          subst h''
          exact hdirStep rf hrf

theorem runMain_touched (cfg : Config) (exifOf : String → ExifResult)
    (renameOk : String → String → Bool) (fuel : Nat)
    (hih : cfg.includeHidden = false) :
    ∀ (walks : List (List (String × List String))) (st st' : RunState),
      runMain cfg exifOf renameOk fuel walks st = .ok st' →
      ∀ rf ∈ st'.touched,
        rf ∈ st.touched
        ∨ (pyStartsWith rf.2 "." = false
            ∧ pyStartsWith (basename rf.1) "." = false) := by
  intro walks
  induction walks with
  | nil =>
    intro st st' h rf hrf
    simp only [runMain, Except.ok.injEq] at h
    rw [← h] at hrf
    exact Or.inl hrf
  | cons walk rest ih =>
    intro st st' h rf hrf
    simp only [runMain] at h
    cases hw : processWalk cfg exifOf renameOk fuel walk st with
    | error e => rw [hw] at h; exact Except.noConfusion h
    | ok st1 =>
      rw [hw] at h
      have h' : runMain cfg exifOf renameOk fuel rest st1 = .ok st' := h
      rcases ih st1 st' h' rf hrf with h1 | h2
      · exact processWalk_touched cfg exifOf renameOk fuel hih walk st st1 hw rf h1
      · exact Or.inr h2

/-- Configuration of C6's concrete counterexample: recursive, hidden files
excluded. -/
def c6Cfg : Config :=
  { sequenceStart := 1, recursive := true, includeHidden := false,
    testMode := false, deploymentName := some "D",
    timestampFormat := "{YYYY}-{MM}-{DD}_{hh}-{mm}-{ss}" }

/-- EXIF oracle of C6's concrete counterexample. -/
def c6Exif : String → ExifResult := fun _ =>
  .ok ⟨none, none, none, some "2023:04:05 06:07:08", none, "JPG"⟩

/-- A walk entering a hidden directory `.h` and then its non-hidden
subdirectory `s` (`os.walk` order). -/
def c6Walk : List (String × List String) :=
  [("/a/b/c/.h", ["x.jpg"]), ("/a/b/c/.h/s", ["y.jpg"])]

/-- C6 counterexample: with include-hidden disabled, the file `y.jpg` inside
`/a/b/c/.h/s` — a directory whose path contains the dot-directory `.h` — IS
processed (it reaches EXIF extraction and is renamed): only the files
directly inside `.h` itself are skipped. -/
theorem hidden_filter_counterexample :
    (runMain c6Cfg c6Exif (fun _ _ => true) 100 [c6Walk]
        (initState c6Cfg [])).map RunState.touched
      = .ok [("/a/b/c/.h/s", "y.jpg")]
    ∧ (runMain c6Cfg c6Exif (fun _ _ => true) 100 [c6Walk]
        (initState c6Cfg [])).map RunState.renamed
      = .ok [("/a/b/c/.h/s/y.jpg", "/a/b/c/.h/s/D_2023-04-05_06-07-08.JPG")]
    ∧ ".h" ∈ pySplitSlash "/a/b/c/.h/s" ∧ pyStartsWith ".h" "." = true := by
  refine ⟨by decide, by decide, by decide, by decide⟩

/-- C6 amended: when include-hidden is not enabled, the exclusion is a
name-prefix check applied to each file's own name and to each directory's
own basename only — every file reaching processing lies in a directory whose
basename does not start with `'.'` and has a name not starting with `'.'`
(first conjunct); files in non-dot subdirectories of a dot-directory are
still processed (see the counterexample).  In non-recursive mode the run
processes exactly the first walk entry whose directory is not skipped as
hidden — the hidden-directory `continue` bypasses the `break`, so this need
not be the root (second conjunct). -/
theorem hidden_filter_amended :
    (∀ (cfg : Config) (exifOf : String → ExifResult)
       (renameOk : String → String → Bool) (fuel : Nat)
       (walks : List (List (String × List String))) (fs : List String)
       (st' : RunState), cfg.includeHidden = false →
       runMain cfg exifOf renameOk fuel walks (initState cfg fs) = .ok st' →
       ∀ rf ∈ st'.touched,
         pyStartsWith rf.2 "." = false ∧ pyStartsWith (basename rf.1) "." = false)
    ∧ (∀ (cfg : Config) (exifOf : String → ExifResult)
         (renameOk : String → String → Bool) (fuel : Nat)
         (walk : List (String × List String)) (st : RunState),
         cfg.recursive = false →
         processWalk cfg exifOf renameOk fuel walk st =
           match walk.dropWhile (fun e => skipDir cfg e.1) with
           | [] => .ok st
           | (root, files) :: _ => processDir cfg exifOf renameOk fuel root files st) := by
  constructor
  · intro cfg exifOf renameOk fuel walks fs st' hih hrun rf hrf
    rcases runMain_touched cfg exifOf renameOk fuel hih walks (initState cfg fs)
      st' hrun rf hrf with h1 | h2
    · simp [initState] at h1
    · exact h2
  · intro cfg exifOf renameOk fuel walk
    induction walk with
    | nil => intro st _; simp [processWalk]
    | cons entry rest ih =>
      obtain ⟨root, files⟩ := entry
      intro st hrec
      by_cases hsd : skipDir cfg root = true
      · rw [List.dropWhile_cons_of_pos (by simpa using hsd)]
        simp only [processWalk, hsd, if_true]
        exact ih st hrec
      · rw [List.dropWhile_cons_of_neg (by simpa using hsd)]
        simp only [processWalk, hsd, if_false]
        cases hd : processDir cfg exifOf renameOk fuel root files st with
        | error e => rfl
        | ok st1 => simp [hrec]

/-- C6 amended, witness: a completed run over a normal (non-hidden) directory
has every touched file non-hidden in a non-hidden directory; and the
non-recursive equation instantiated on the concrete hidden-then-visible walk
shows the directory processed is `/a/b/c/.h/s`. -/
theorem hidden_filter_amended_witness :
    (∃ st' : RunState,
      runMain c6Cfg c6Exif (fun _ _ => true) 100 [c6Walk] (initState c6Cfg [])
        = .ok st'
      ∧ ∀ rf ∈ st'.touched,
          pyStartsWith rf.2 "." = false ∧ pyStartsWith (basename rf.1) "." = false)
    ∧ processWalk { c6Cfg with recursive := false } c6Exif (fun _ _ => true) 100
        c6Walk (initState c6Cfg [])
      = processDir { c6Cfg with recursive := false } c6Exif (fun _ _ => true) 100
          "/a/b/c/.h/s" ["y.jpg"] (initState c6Cfg []) := by
  constructor
  · have hok : (runMain c6Cfg c6Exif (fun _ _ => true) 100 [c6Walk]
        (initState c6Cfg [])).isOk = true := by decide
    cases hr : runMain c6Cfg c6Exif (fun _ _ => true) 100 [c6Walk]
        (initState c6Cfg []) with
    | error e => rw [hr] at hok; simp [Except.isOk, Except.toBool] at hok
    | ok st' =>
      exact ⟨st', rfl, fun rf hrf => hidden_filter_amended.1 c6Cfg c6Exif
        (fun _ _ => true) 100 [c6Walk] [] st' rfl hr rf hrf⟩
  · rw [hidden_filter_amended.2 { c6Cfg with recursive := false } c6Exif
      (fun _ _ => true) 100 c6Walk (initState c6Cfg []) rfl]
    decide

/-! ## C7: timestamp source selection

Line 181 is `exif_data.get('DateTimeOriginal') or exif_data.get('DateTimeDigitized')`
— Python `or` tests TRUTHINESS, not presence: a present-but-empty
`DateTimeOriginal` falls through to `DateTimeDigitized`, and two
present-but-empty fields are reported as `NoTimestampField`. -/

/-- Configuration of C7's concrete scenario. -/
def c7Cfg : Config :=
  { sequenceStart := 1, recursive := false, includeHidden := false,
    testMode := false, deploymentName := some "D",
    timestampFormat := "{YYYY}-{MM}-{DD}_{hh}-{mm}-{ss}" }

/-- Initial state of C7's concrete scenario. -/
def c7St : RunState :=
  { deployment := some "D", fs := [], skipped := [], renamed := [],
    reported := [], touched := [] }

/-- A record with `DateTimeOriginal` present but empty. -/
def c7Exif : ExifData :=
  ⟨none, none, none, some "", some "2023:04:05 06:07:08", "JPG"⟩

/-- A record with both timestamp fields present but empty. -/
def c7ExifBoth : ExifData := ⟨none, none, none, some "", some "", "JPG"⟩

/-- Expected state of C7's both-empty scenario: the file is skipped with
`NoTimestampField` although both fields are present. -/
def c7St' : RunState :=
  { c7St with
    touched := [("/a/b/c/d", "f1")]
    skipped := [("/a/b/c/d/f1", "No timestamp found in image EXIF")] }

/-- C7 counterexample: with `DateTimeOriginal` present but equal to `""`,
the timestamp source is `DateTimeDigitized`, not the present
`DateTimeOriginal`; and a record whose two timestamp fields are both present
but empty is failed with `NoTimestampField` even though the fields are
present. -/
theorem timestamp_source_counterexample :
    c7Exif.dateTimeOriginal.isSome = true
    ∧ selectTimestamp c7Exif = some "2023:04:05 06:07:08"
    ∧ selectTimestamp c7Exif ≠ c7Exif.dateTimeOriginal
    ∧ processFile c7Cfg (fun _ => .ok c7ExifBoth) (fun _ _ => true) 10
        "/a/b/c/d" 1 c7St 1 "f1" = .ok (c7St', 1) := by
  refine ⟨by decide, by decide, by decide, by decide⟩

/-- C7 amended: the timestamp source field is `DateTimeOriginal` when that
field is truthy (present and non-empty); otherwise it is `DateTimeDigitized`
(whatever its value); the selected value is falsy exactly when both fields
are absent or empty, and in that case — and only then, among files reaching
this stage — the file is failed with `NoTimestampField` (skip reason
`"No timestamp found in image EXIF"`). -/
theorem timestamp_source_amended :
    (∀ e : ExifData, truthy e.dateTimeOriginal = true →
      selectTimestamp e = e.dateTimeOriginal)
    ∧ (∀ e : ExifData, truthy e.dateTimeOriginal = false →
      selectTimestamp e = e.dateTimeDigitized)
    ∧ (∀ e : ExifData, truthy (selectTimestamp e) = false ↔
      truthy e.dateTimeOriginal = false ∧ truthy e.dateTimeDigitized = false)
    ∧ (∀ (cfg : Config) (exifOf : String → ExifResult)
         (renameOk : String → String → Bool) (fuel : Nat) (root : String)
         (seqWidth : Nat) (st : RunState) (seqVal : Int) (f : String)
         (e : ExifData),
         (!cfg.includeHidden && pyStartsWith f ".") = false →
         exifOf (pathJoin root f) = .ok e →
         truthy (selectTimestamp e) = false →
         processFile cfg exifOf renameOk fuel root seqWidth st seqVal f
           = .ok ({ st with
                    touched := st.touched ++ [(root, f)]
                    skipped := st.skipped ++
                      [(pathJoin root f, "No timestamp found in image EXIF")] },
                  seqVal)) := by
  refine ⟨?_, ?_, ?_, ?_⟩
  · intro e h
    simp [selectTimestamp, pyOr, h]
  · intro e h
    simp [selectTimestamp, pyOr, h]
  · intro e
    cases h : truthy e.dateTimeOriginal with
    | true => simp [selectTimestamp, pyOr, h]
    | false => simp [selectTimestamp, pyOr, h]
  · intro cfg exifOf renameOk fuel root seqWidth st seqVal f e h1 h2 h3
    simp only [processFile, h1, Bool.false_eq_true, if_false, h2, h3,
      Bool.not_false, if_true]

/-- C7 amended, witness: the skip conjunct applied to the concrete
both-fields-empty record. -/
theorem timestamp_source_amended_witness :
    processFile c7Cfg (fun _ => .ok c7ExifBoth) (fun _ _ => true) 10
      "/a/b/c/d" 1 c7St 1 "f1"
      = .ok ({ c7St with
               touched := c7St.touched ++ [("/a/b/c/d", "f1")]
               skipped := c7St.skipped ++
                 [(pathJoin "/a/b/c/d" "f1", "No timestamp found in image EXIF")] },
             1) :=
  timestamp_source_amended.2.2.2 c7Cfg (fun _ => .ok c7ExifBoth) (fun _ _ => true)
    10 "/a/b/c/d" 1 c7St 1 "f1" c7ExifBoth (by decide) rfl (by decide)

/-! ## C8: per-file failures are non-fatal, with the documented skip reasons -/

/-- Configuration of C8's concrete scenario. -/
def c8Cfg : Config :=
  { sequenceStart := 1, recursive := false, includeHidden := false,
    testMode := false, deploymentName := some "D",
    timestampFormat := "{YYYY}-{MM}-{DD}_{hh}-{mm}-{ss}" }

/-- Initial state of C8's concrete scenario. -/
def c8St : RunState :=
  { deployment := some "D", fs := [], skipped := [], renamed := [],
    reported := [], touched := [] }

/-- EXIF oracle of C8's concrete scenario: two valid images with distinct
timestamps. -/
def c8Exif : String → ExifResult := fun p =>
  if p = "/a/b/c/d/f1" then
    .ok ⟨none, none, none, some "2023:04:05 06:07:08", none, "JPG"⟩
  else if p = "/a/b/c/d/f2" then
    .ok ⟨none, none, none, some "2024:05:06 07:08:09", none, "JPG"⟩
  else .notAnImageFile

/-- Rename oracle of C8's concrete scenario: the rename of `f1` fails. -/
def c8Rename : String → String → Bool := fun old _ => old ≠ "/a/b/c/d/f1"

/-- Expected final state of C8's concrete scenario: `f1`'s commit failure is
recorded and `f2` is still processed and renamed. -/
def c8St' : RunState :=
  { deployment := some "D"
    fs := ["/a/b/c/d/D_2024-05-06_07-08-09.JPG"]
    skipped := [("/a/b/c/d/f1", "Failed to rename file")]
    renamed := [("/a/b/c/d/f2", "/a/b/c/d/D_2024-05-06_07-08-09.JPG")]
    reported := [("/a/b/c/d/f2", "/a/b/c/d/D_2024-05-06_07-08-09.JPG")]
    touched := [("/a/b/c/d", "f1"), ("/a/b/c/d", "f2")] }

/-- C8: every per-file failure is non-fatal and processing continues with
the next file: a `NotAnImage` file is skipped silently with no skip entry
(conjunct 1); `NoMetadata` records `"No EXIF data found"` (conjunct 2);
a falsy timestamp field records `"No timestamp found in image EXIF"`
(conjunct 3); an unparseable timestamp records
`"Timestamp not in correct format"` (conjunct 4); after any per-file `.ok`
outcome the directory processing continues with the remaining files
(conjunct 5); and in a concrete directory where the first file's rename
commit fails, the run records `"Failed to rename file"` and still processes
and renames the second file (conjunct 6). -/
theorem per_file_failures_nonfatal :
    (∀ (cfg : Config) (exifOf : String → ExifResult)
       (renameOk : String → String → Bool) (fuel : Nat) (root : String)
       (seqWidth : Nat) (st : RunState) (seqVal : Int) (f : String),
       (!cfg.includeHidden && pyStartsWith f ".") = false →
       exifOf (pathJoin root f) = .notAnImageFile →
       processFile cfg exifOf renameOk fuel root seqWidth st seqVal f
         = .ok ({ st with touched := st.touched ++ [(root, f)] }, seqVal))
    ∧ (∀ (cfg : Config) (exifOf : String → ExifResult)
         (renameOk : String → String → Bool) (fuel : Nat) (root : String)
         (seqWidth : Nat) (st : RunState) (seqVal : Int) (f : String),
         (!cfg.includeHidden && pyStartsWith f ".") = false →
         exifOf (pathJoin root f) = .invalidExifData →
         processFile cfg exifOf renameOk fuel root seqWidth st seqVal f
           = .ok ({ st with
                    touched := st.touched ++ [(root, f)]
                    skipped := st.skipped ++
                      [(pathJoin root f, "No EXIF data found")] }, seqVal))
    ∧ (∀ (cfg : Config) (exifOf : String → ExifResult)
         (renameOk : String → String → Bool) (fuel : Nat) (root : String)
         (seqWidth : Nat) (st : RunState) (seqVal : Int) (f : String)
         (e : ExifData),
         (!cfg.includeHidden && pyStartsWith f ".") = false →
         exifOf (pathJoin root f) = .ok e →
         truthy (selectTimestamp e) = false →
         processFile cfg exifOf renameOk fuel root seqWidth st seqVal f
           = .ok ({ st with
                    touched := st.touched ++ [(root, f)]
                    skipped := st.skipped ++
                      [(pathJoin root f, "No timestamp found in image EXIF")] },
                  seqVal))
    ∧ (∀ (cfg : Config) (exifOf : String → ExifResult)
         (renameOk : String → String → Bool) (fuel : Nat) (root : String)
         (seqWidth : Nat) (st : RunState) (seqVal : Int) (f : String)
         (e : ExifData),
         (!cfg.includeHidden && pyStartsWith f ".") = false →
         exifOf (pathJoin root f) = .ok e →
         truthy (selectTimestamp e) = true →
         deriveTimestamp ((selectTimestamp e).getD "") = none →
         processFile cfg exifOf renameOk fuel root seqWidth st seqVal f
           = .ok ({ st with
                    touched := st.touched ++ [(root, f)]
                    skipped := st.skipped ++
                      [(pathJoin root f, "Timestamp not in correct format")] },
                  seqVal))
    ∧ (∀ (cfg : Config) (exifOf : String → ExifResult)
         (renameOk : String → String → Bool) (fuel : Nat) (root : String)
         (seqWidth : Nat) (f : String) (rest : List String) (st st1 : RunState)
         (seqVal s1 : Int),
         processFile cfg exifOf renameOk fuel root seqWidth st seqVal f
           = .ok (st1, s1) →
         processFiles cfg exifOf renameOk fuel root seqWidth (f :: rest) st seqVal
           = processFiles cfg exifOf renameOk fuel root seqWidth rest st1 s1)
    ∧ processFiles c8Cfg c8Exif c8Rename 100 "/a/b/c/d" 1 ["f1", "f2"] c8St 1
        = .ok (c8St', 3) := by
  refine ⟨?_, ?_, ?_, ?_, ?_, by decide⟩
  · intro cfg exifOf renameOk fuel root seqWidth st seqVal f h1 h2
    simp only [processFile, h1, Bool.false_eq_true, if_false, h2]
  · intro cfg exifOf renameOk fuel root seqWidth st seqVal f h1 h2
    simp only [processFile, h1, Bool.false_eq_true, if_false, h2]
  · intro cfg exifOf renameOk fuel root seqWidth st seqVal f e h1 h2 h3
    simp only [processFile, h1, Bool.false_eq_true, if_false, h2, h3,
      Bool.not_false, if_true]
  · intro cfg exifOf renameOk fuel root seqWidth st seqVal f e h1 h2 h3 h4
    simp only [processFile, h1, Bool.false_eq_true, if_false, h2, h3,
      Bool.not_true, if_false, h4]
  · intro cfg exifOf renameOk fuel root seqWidth f rest st st1 seqVal s1 hf
    simp only [processFiles]
    rw [hf]

/-- C8 witness: the `NoMetadata` conjunct at a concrete input. -/
theorem per_file_failures_nonfatal_witness :
    processFile c8Cfg (fun _ => .invalidExifData) c8Rename 100 "/a/b/c/d" 1
      c8St 1 "f1"
      = .ok ({ c8St with
               touched := c8St.touched ++ [("/a/b/c/d", "f1")]
               skipped := c8St.skipped ++
                 [(pathJoin "/a/b/c/d" "f1", "No EXIF data found")] }, 1) :=
  per_file_failures_nonfatal.2.1 c8Cfg (fun _ => .invalidExifData) c8Rename 100
    "/a/b/c/d" 1 c8St 1 "f1" (by decide) rfl

/-! ## C9: deployment-name derivation and memoization

`if not deployment_name:` re-derives whenever the current value is falsy.
An absolute path with exactly five `'/'`-separated segments has `""` as its
5th-from-last segment (the empty segment before the leading slash), so the
derived value is empty, stays falsy, and is re-derived — possibly to a
DIFFERENT value — on later files. -/

/-- Configuration of C9's concrete counterexample: no deployment name
configured, recursive walk over directories of different depths. -/
def c9Cfg : Config :=
  { sequenceStart := 1, recursive := true, includeHidden := false,
    testMode := false, deploymentName := none,
    timestampFormat := "{YYYY}-{MM}-{DD}_{hh}-{mm}-{ss}" }

/-- EXIF oracle of C9's concrete counterexample. -/
def c9Exif : String → ExifResult := fun _ =>
  .ok ⟨none, none, none, some "2023:04:05 06:07:08", none, "JPG"⟩

/-- Walk of C9's concrete counterexample: a depth-3 directory followed by a
depth-4 one. -/
def c9Walk : List (String × List String) := [("/a/b/c", ["f1"]), ("/a/b/c/d", ["f2"])]

/-- C9 counterexample: the deployment name derived on the first file is `""`
(prefix `_`), which is falsy, so it is re-derived on the second file — to
`"a"` (prefix `a_`): the memoized value is NOT reused unchanged for every
subsequent file. -/
theorem deployment_memo_counterexample :
    (runMain c9Cfg c9Exif (fun _ _ => true) 100 [c9Walk]
        (initState c9Cfg [])).map RunState.renamed
      = .ok [("/a/b/c/f1", "/a/b/c/_2023-04-05_06-07-08.JPG"),
             ("/a/b/c/d/f2", "/a/b/c/d/a_2023-04-05_06-07-08.JPG")]
    ∧ (runMain c9Cfg c9Exif (fun _ _ => true) 100 [c9Walk]
        (initState c9Cfg [])).map RunState.deployment
      = .ok (some "a") := by
  refine ⟨by decide, by decide⟩

/-- C9 amended: the final complete path is
`root/<deploymentName>_<baseFilename>` (conjunct 1); a truthy (non-empty)
deployment name — configured or previously derived — is reused unchanged by
every later file (conjunct 2); but when the current value is unset OR empty,
it is (re-)derived from the current file's full path as its 5th-from-last
`'/'`-separated segment (conjunct 3), so only a non-empty derived value is
memoized for good. -/
theorem deployment_memo_amended :
    (∀ (fs : List String) (root dep : String) (dict : String → Option String)
       (fuel : Nat) (name fin comp : String),
       resolveCollision fs root dep dict fuel name = .ok (fin, comp) →
       comp = pathJoin root (dep ++ "_" ++ fin))
    ∧ (∀ (cfg : Config) (exifOf : String → ExifResult)
         (renameOk : String → String → Bool) (fuel : Nat) (root : String)
         (seqWidth : Nat) (st : RunState) (seqVal : Int) (f : String)
         (d : String) (st' : RunState) (s' : Int),
         st.deployment = some d → truthy (some d) = true →
         processFile cfg exifOf renameOk fuel root seqWidth st seqVal f
           = .ok (st', s') →
         st'.deployment = some d)
    ∧ (∀ (cfg : Config) (exifOf : String → ExifResult)
         (renameOk : String → String → Bool) (fuel : Nat) (root : String)
         (seqWidth : Nat) (st : RunState) (seqVal : Int) (f : String)
         (e : ExifData) (g : TsGroups) (name : String) (st' : RunState) (s' : Int),
         (!cfg.includeHidden && pyStartsWith f ".") = false →
         exifOf (pathJoin root f) = .ok e →
         truthy (selectTimestamp e) = true →
         deriveTimestamp ((selectTimestamp e).getD "") = some g →
         buildNewFileName cfg e g seqVal seqWidth root = some name →
         truthy st.deployment = false →
         ∀ hlen : ¬ (pySplitSlash (pathJoin root name)).length < 5,
         processFile cfg exifOf renameOk fuel root seqWidth st seqVal f
           = .ok (st', s') →
         st'.deployment = some ((pySplitSlash (pathJoin root name)).get
           ⟨(pySplitSlash (pathJoin root name)).length - 5, by omega⟩)) := by
  refine ⟨?_, ?_, ?_⟩
  · intro fs root dep dict fuel name fin comp h
    exact (resolveCollision_ok_spec fs root dep dict fuel name fin comp h).2
  · intro cfg exifOf renameOk fuel root seqWidth st seqVal f d st' s' hst htr h
    simp only [processFile, deriveDeployment, deploymentFalsy, hst, htr,
      Bool.not_true, Bool.false_eq_true, if_false] at h
    repeat' split at h
    any_goals exact Except.noConfusion h
    all_goals simp only [Except.ok.injEq, Prod.mk.injEq] at h
    all_goals obtain ⟨h1, _⟩ := h
    all_goals subst h1
    all_goals simp_all
  · intro cfg exifOf renameOk fuel root seqWidth st seqVal f e g name st' s'
      h1 h2 h3 h4 h5 h6 hlen h
    simp only [processFile, h1, Bool.false_eq_true, if_false, h2, h3,
      Bool.not_true, h4, h5, deriveDeployment, deploymentFalsy, h6,
      Bool.not_false, if_true, dif_neg hlen] at h
    repeat' split at h
    any_goals exact Except.noConfusion h
    all_goals simp only [Except.ok.injEq, Prod.mk.injEq] at h
    all_goals obtain ⟨h1, _⟩ := h
    all_goals subst h1
    all_goals simp_all

/-- C9 amended, witness: the memoization conjunct applied to a concrete file
processed under an already-truthy deployment name `"D"`. -/
theorem deployment_memo_amended_witness :
    c4St'.deployment = some "D" :=
  deployment_memo_amended.2.1 c8Cfg c8Exif (fun _ _ => false) 10 "/a/b/c/d" 1
    c4St 1 "f1" "D" c4St' 2 rfl (by decide) (by decide)

/-! ## C10: IndexError on short paths aborts the whole run -/

/-- Walk of C10's concrete scenario: a directory whose files' full paths have
only four `'/'`-separated segments. -/
def c10Walk : List (String × List String) := [("/a/b", ["f1"])]

/-- State carried out of C10's concrete crash: the file was touched but NO
skip entry was recorded. -/
def c10StE : RunState :=
  { deployment := none, fs := [], skipped := [], renamed := [],
    reported := [], touched := [("/a/b", "f1")] }

/-- C10: when no deployment name is configured (or the current value is
falsy) and the computed full path of a file has fewer than five
`'/'`-separated segments, the derivation `path.split("/")[-5]` raises an
uncaught `IndexError`: `processFile` aborts with `indexError` carrying a
state with NO skip entry added (conjunct 1); the error propagates out of the
directory's file loop (conjunct 2) and out of the walk and input-path loops
(conjuncts 3 and 4), aborting the entire run — concretely, the whole run on
`/a/b` ends in `indexError` with an empty skip list (conjunct 5). -/
theorem short_path_index_error :
    (∀ (cfg : Config) (exifOf : String → ExifResult)
       (renameOk : String → String → Bool) (fuel : Nat) (root : String)
       (seqWidth : Nat) (st : RunState) (seqVal : Int) (f : String)
       (e : ExifData) (g : TsGroups) (name : String),
       (!cfg.includeHidden && pyStartsWith f ".") = false →
       exifOf (pathJoin root f) = .ok e →
       truthy (selectTimestamp e) = true →
       deriveTimestamp ((selectTimestamp e).getD "") = some g →
       buildNewFileName cfg e g seqVal seqWidth root = some name →
       truthy st.deployment = false →
       (pySplitSlash (pathJoin root name)).length < 5 →
       processFile cfg exifOf renameOk fuel root seqWidth st seqVal f
         = .error (.indexError, { st with touched := st.touched ++ [(root, f)] }))
    ∧ (∀ (cfg : Config) (exifOf : String → ExifResult)
         (renameOk : String → String → Bool) (fuel : Nat) (root : String)
         (seqWidth : Nat) (f : String) (rest : List String) (st : RunState)
         (seqVal : Int) (err : CrashKind × RunState),
         processFile cfg exifOf renameOk fuel root seqWidth st seqVal f
           = .error err →
         processFiles cfg exifOf renameOk fuel root seqWidth (f :: rest) st seqVal
           = .error err)
    ∧ (∀ (cfg : Config) (exifOf : String → ExifResult)
         (renameOk : String → String → Bool) (fuel : Nat) (root : String)
         (files : List String) (rest : List (String × List String))
         (st : RunState) (err : CrashKind × RunState),
         skipDir cfg root = false →
         processDir cfg exifOf renameOk fuel root files st = .error err →
         processWalk cfg exifOf renameOk fuel ((root, files) :: rest) st
           = .error err)
    ∧ (∀ (cfg : Config) (exifOf : String → ExifResult)
         (renameOk : String → String → Bool) (fuel : Nat)
         (walk : List (String × List String))
         (rest : List (List (String × List String))) (st : RunState)
         (err : CrashKind × RunState),
         processWalk cfg exifOf renameOk fuel walk st = .error err →
         runMain cfg exifOf renameOk fuel (walk :: rest) st = .error err)
    ∧ runMain c9Cfg c9Exif (fun _ _ => true) 100 [c10Walk] (initState c9Cfg [])
        = .error (.indexError, c10StE) := by
  refine ⟨?_, ?_, ?_, ?_, by decide⟩
  · intro cfg exifOf renameOk fuel root seqWidth st seqVal f e g name
      h1 h2 h3 h4 h5 h6 hlen
    simp only [processFile, h1, Bool.false_eq_true, if_false, h2, h3,
      Bool.not_true, h4, h5, deriveDeployment, deploymentFalsy, h6,
      Bool.not_false, if_true, dif_pos hlen]
  · intro cfg exifOf renameOk fuel root seqWidth f rest st seqVal err hf
    simp only [processFiles]
    rw [hf]
  · intro cfg exifOf renameOk fuel root files rest st err hsd hd
    simp only [processWalk, hsd, Bool.false_eq_true, if_false]
    rw [hd]
  · intro cfg exifOf renameOk fuel walk rest st err hw
    simp only [runMain]
    rw [hw]

/-- C10 witness: the per-file conjunct at the concrete short-path input
`/a/b/f1`. -/
theorem short_path_index_error_witness :
    processFile c9Cfg c9Exif (fun _ _ => true) 100 "/a/b" 1
      (initState c9Cfg []) 1 "f1"
      = .error (.indexError, { initState c9Cfg [] with touched :=
          (initState c9Cfg []).touched ++ [("/a/b", "f1")] }) :=
  short_path_index_error.1 c9Cfg c9Exif (fun _ _ => true) 100 "/a/b" 1
    (initState c9Cfg []) 1 "f1"
    ⟨none, none, none, some "2023:04:05 06:07:08", none, "JPG"⟩
    ⟨"2023", "04", "05", "06", "07", "08"⟩ "2023-04-05_06-07-08.JPG"
    (by decide) rfl (by decide) (by decide) (by decide) (by decide) (by decide)

end Catir
